import Mathlib

/-!
Verification of `llms/maritaca/options.go`: the functional-option configuration
layer of the maritaca LLM client. Go strings are modelled as byte sequences
(`List Nat`, each entry < 256), Go's `float64` configuration knobs as `Rat`
(they are only ever stored, never computed with), and the fatal
`log.Fatal` path as the `Except.error` case of the modifier's result (the
Go modifiers return nothing; an error value models process termination).
The `net/url` parsing and serialization that `WithServerURL` relies on is
translated from the Go standard library (`src/net/url/url.go`); error
payloads are abstracted to fixed message strings.
-/

/-- A Go `string`: a sequence of bytes. -/
abbrev GoString := List Nat

/-- UTF-8 bytes of one character, as Go would store them in a string. -/
def utf8Bytes (c : Char) : List Nat :=
  let n := c.toNat
  if n < 0x80 then [n]
  else if n < 0x800 then [0xC0 + n / 0x40, 0x80 + n % 0x40]
  else if n < 0x10000 then
    [0xE0 + n / 0x1000, 0x80 + (n / 0x40) % 0x40, 0x80 + n % 0x40]
  else
    [0xF0 + n / 0x40000, 0x80 + (n / 0x1000) % 0x40,
     0x80 + (n / 0x40) % 0x40, 0x80 + n % 0x40]

/-- The Go string literal with the given characters (UTF-8 encoded bytes). -/
def goStr (s : String) : GoString :=
  s.data.foldr (fun c acc => utf8Bytes c ++ acc) []

/-- Go `strings.IndexByte`-style search: index of the first occurrence of a byte. -/
def idxByte (s : GoString) (b : Nat) : Option Nat :=
  match s with
  | [] => none
  | c :: rest =>
    if c == b then some 0
    else (idxByte rest b).map (· + 1)

/-- Go `strings.LastIndexByte`-style search: index of the last occurrence of a byte. -/
def lastIdxByte (s : GoString) (b : Nat) : Option Nat :=
  match s with
  | [] => none
  | c :: rest =>
    match lastIdxByte rest b with
    | some i => some (i + 1)
    | none => if c == b then some 0 else none

/-- Go `strings.Index`-style search: index of the first occurrence of a substring. -/
def idxSub (s pat : GoString) : Option Nat :=
  match s with
  | [] => if pat == [] then some 0 else none
  | _ :: rest =>
    if pat.isPrefixOf s then some 0
    else (idxSub rest pat).map (· + 1)

/-- Go `split(s, sep, cutc)` from `net/url`: split around the first occurrence
of byte `sep`; `cutc` drops the separator from the second half. -/
def goSplit (s : GoString) (sep : Nat) (cutc : Bool) : GoString × GoString :=
  match s with
  | [] => ([], [])
  | c :: rest =>
    if c == sep then ([], if cutc then rest else c :: rest)
    else
      let p := goSplit rest sep cutc
      (c :: p.1, p.2)

/-- ASCII letter test (byte-wise, as Go's `getScheme` does). -/
def isAlphaByte (c : Nat) : Bool := (97 ≤ c && c ≤ 122) || (65 ≤ c && c ≤ 90)

/-- ASCII digit test. -/
def isDigitByte (c : Nat) : Bool := 48 ≤ c && c ≤ 57

/-- ASCII alphanumeric test. -/
def isAlphaNumByte (c : Nat) : Bool := isAlphaByte c || isDigitByte c

/-- Go `strings.ToLower` restricted to ASCII bytes (scheme bytes are ASCII). -/
def toLowerByte (c : Nat) : Nat := if 65 ≤ c && c ≤ 90 then c + 32 else c

namespace url

/-- The encoding contexts of `net/url` (`encodePath`, `encodeHost`, ...). -/
inductive Encoding where
  | path
  | pathSegment
  | host
  | zone
  | userPassword
  | queryComponent
  | fragment
deriving DecidableEq, BEq

/-- Go `net/url.shouldEscape`: whether byte `c` must be percent-encoded in
the given encoding context. -/
def shouldEscape (c : Nat) (mode : Encoding) : Bool :=
  if isAlphaNumByte c then false
  else if (mode == .host || mode == .zone) &&
      (c == 33 || c == 36 || c == 38 || c == 39 || c == 40 || c == 41 ||
       c == 42 || c == 43 || c == 44 || c == 59 || c == 61 || c == 58 ||
       c == 91 || c == 93 || c == 60 || c == 62 || c == 34) then
    -- '!' '$' '&' '\'' '(' ')' '*' '+' ',' ';' '=' ':' '[' ']' '<' '>' '"'
    false
  else if c == 45 || c == 95 || c == 46 || c == 126 then
    -- unreserved marks '-' '_' '.' '~'
    false
  else if c == 36 || c == 38 || c == 43 || c == 44 || c == 47 || c == 58 ||
          c == 59 || c == 61 || c == 63 || c == 64 then
    -- reserved '$' '&' '+' ',' '/' ':' ';' '=' '?' '@'
    match mode with
    | .path => c == 63
    | .pathSegment => c == 47 || c == 59 || c == 44 || c == 63
    | .userPassword => c == 64 || c == 47 || c == 63 || c == 58
    | .queryComponent => true
    | .fragment => false
    | _ => true
  else if mode == .fragment && (c == 33 || c == 40 || c == 41 || c == 42) then
    false
  else true

/-- Bytes out of which the simple host names of the round-trip theorem are
built: ASCII alphanumerics, dot and hyphen. -/
def simpleHostByte (c : Nat) : Bool := isAlphaNumByte c || c == 46 || c == 45

/-- Go `net/url.ishex`. -/
def ishex (c : Nat) : Bool :=
  (48 ≤ c && c ≤ 57) || (97 ≤ c && c ≤ 102) || (65 ≤ c && c ≤ 70)

/-- Go `net/url.unhex`. -/
def unhex (c : Nat) : Nat :=
  if 48 ≤ c && c ≤ 57 then c - 48
  else if 97 ≤ c && c ≤ 102 then c - 97 + 10
  else if 65 ≤ c && c ≤ 70 then c - 65 + 10
  else 0

/-- Upper-case hex digit of a value < 16 (Go's `upperhex` table). -/
def hexUpper (n : Nat) : Nat := if n < 10 then 48 + n else 65 + (n - 10)

/-- Go `net/url.escape`: percent-encode the bytes that `shouldEscape` in this
mode; in query components a space becomes `+`. -/
def escape (s : GoString) (mode : Encoding) : GoString :=
  match s with
  | [] => []
  | c :: rest =>
    if c == 32 && mode == .queryComponent then 43 :: escape rest mode
    else if shouldEscape c mode then
      37 :: hexUpper (c / 16) :: hexUpper (c % 16) :: escape rest mode
    else c :: escape rest mode

/-- Go `net/url.unescape`: decode `%XX` escapes (and `+` in query components),
with the host/zone-specific validity checks. Error payloads are abstracted. -/
def unescape (s : GoString) (mode : Encoding) : Except GoString GoString :=
  match s with
  | [] => .ok []
  | c :: rest =>
    if c == 37 then  -- '%'
      match rest with
      | h1 :: h2 :: rest2 =>
        if !(ishex h1 && ishex h2) then .error (goStr "invalid URL escape")
        else if mode == .host && unhex h1 < 8 && !(h1 == 50 && h2 == 53) then
          -- in a host, %-encoding is only allowed for non-ASCII bytes and %25
          .error (goStr "invalid URL escape")
        else if mode == .zone then
          let v := unhex h1 * 16 + unhex h2
          if !(h1 == 50 && h2 == 53) && v != 32 && shouldEscape v .host then
            .error (goStr "invalid URL escape")
          else (unescape rest2 mode).map (fun t => v :: t)
        else (unescape rest2 mode).map (fun t => (unhex h1 * 16 + unhex h2) :: t)
      | _ => .error (goStr "invalid URL escape")
    else if c == 43 then  -- '+'
      (unescape rest mode).map
        (fun t => (if mode == .queryComponent then 32 else 43) :: t)
    else if (mode == .host || mode == .zone) && c < 0x80 && shouldEscape c mode then
      .error (goStr "invalid character in host name")
    else (unescape rest mode).map (fun t => c :: t)

/-- Go `net/url.validEncoded`: whether `s` is a valid encoded form in `mode`. -/
def validEncoded (s : GoString) (mode : Encoding) : Bool :=
  s.all fun c =>
    if c == 33 || c == 36 || c == 38 || c == 39 || c == 40 || c == 41 ||
       c == 42 || c == 43 || c == 44 || c == 59 || c == 61 || c == 58 ||
       c == 64 then true
    else if c == 91 || c == 93 then true
    else if c == 37 then true
    else !shouldEscape c mode

/-- Go `net/url.validOptionalPort`: empty, or `:` followed by digits only. -/
def validOptionalPort (port : GoString) : Bool :=
  match port with
  | [] => true
  | c :: rest => c == 58 && rest.all isDigitByte

/-- Go `net/url.validUserinfo`: RFC 3986 userinfo byte check. -/
def validUserinfo (s : GoString) : Bool :=
  s.all fun c =>
    isAlphaNumByte c || c == 45 || c == 46 || c == 95 || c == 58 ||
    c == 126 || c == 33 || c == 36 || c == 38 || c == 39 || c == 40 ||
    c == 41 || c == 42 || c == 43 || c == 44 || c == 59 || c == 61 ||
    c == 37 || c == 64

/-- Go `net/url.Userinfo`. -/
structure Userinfo where
  username : GoString
  password : GoString
  passwordSet : Bool
deriving DecidableEq

/-- Go `net/url.parseHost`: validate and unescape a host (with optional
`[...]` IPv6 literal, zone identifier, and port). -/
def parseHost (host : GoString) : Except GoString GoString :=
  if host.head? == some 91 then  -- '['
    match lastIdxByte host 93 with  -- ']'
    | none => .error (goStr "missing close bracket in host")
    | some i =>
      let colonPort := host.drop (i + 1)
      if !validOptionalPort colonPort then
        .error (goStr "invalid port after host")
      else
        match idxSub (host.take i) (goStr "%25") with
        | some zone => do
          let host1 ← unescape (host.take zone) .host
          let host2 ← unescape ((host.take i).drop zone) .zone
          let host3 ← unescape (host.drop i) .host
          .ok (host1 ++ host2 ++ host3)
        | none => unescape host .host
  else
    match lastIdxByte host 58 with  -- ':'
    | some i =>
      let colonPort := host.drop i
      if !validOptionalPort colonPort then
        .error (goStr "invalid port after host")
      else unescape host .host
    | none => unescape host .host

/-- Go `net/url.parseAuthority`: split `userinfo@host` at the last `@`. -/
def parseAuthority (authority : GoString) :
    Except GoString (Option Userinfo × GoString) :=
  match lastIdxByte authority 64 with  -- '@'
  | none => (parseHost authority).map (fun h => (none, h))
  | some i => do
    let host ← parseHost (authority.drop (i + 1))
    let userinfo := authority.take i
    if !validUserinfo userinfo then .error (goStr "invalid userinfo")
    else if !(userinfo.contains 58) then do  -- ':'
      let u ← unescape userinfo .userPassword
      .ok (some ⟨u, [], false⟩, host)
    else do
      let p := goSplit userinfo 58 true
      let un ← unescape p.1 .userPassword
      let pw ← unescape p.2 .userPassword
      .ok (some ⟨un, pw, true⟩, host)

/-- Go `net/url.URL`. The Go field holding the encoded opaque (rootless)
part is named `Opaque`; it is embedded here as `Opq`. -/
structure URL where
  Scheme : GoString := []
  Opq : GoString := []
  User : Option Userinfo := none
  Host : GoString := []
  Path : GoString := []
  RawPath : GoString := []
  OmitHost : Bool := false
  ForceQuery : Bool := false
  RawQuery : GoString := []
  Fragment : GoString := []
  RawFragment : GoString := []
deriving DecidableEq

/-- Go `net/url.getScheme` (accumulator form): scan for `scheme:`; a leading
digit/`+`/`-`/`.` or any other non-scheme byte means there is no scheme. -/
def getSchemeAux (orig : GoString) (acc : GoString) :
    GoString → Except GoString (GoString × GoString)
  | [] => .ok ([], orig)
  | c :: rest =>
    if isAlphaByte c then getSchemeAux orig (acc ++ [c]) rest
    else if isDigitByte c || c == 43 || c == 45 || c == 46 then
      if acc == [] then .ok ([], orig)
      else getSchemeAux orig (acc ++ [c]) rest
    else if c == 58 then  -- ':'
      if acc == [] then .error (goStr "missing protocol scheme")
      else .ok (acc, rest)
    else .ok ([], orig)

/-- Go `net/url.getScheme`. -/
def getScheme (rawURL : GoString) : Except GoString (GoString × GoString) :=
  getSchemeAux rawURL [] rawURL

/-- Go `net/url.stringContainsCTLByte`. -/
def stringContainsCTLByte (s : GoString) : Bool :=
  s.any fun b => b < 32 || b == 127

/-- Go `(*URL).setPath`: unescape into `Path`, keeping `RawPath` only when
the escaped form of `Path` differs from the input. Returns the two fields. -/
def setPathFields (p : GoString) : Except GoString (GoString × GoString) := do
  let path ← unescape p .path
  .ok (path, if p == escape path .path then [] else p)

/-- Go `(*URL).setFragment`, returning the `Fragment`/`RawFragment` fields. -/
def setFragmentFields (f : GoString) : Except GoString (GoString × GoString) := do
  let frag ← unescape f .fragment
  .ok (frag, if f == escape frag .fragment then [] else f)

/-- Authority extraction and path setting: the tail of Go's
`net/url.parse` after the rootless-path early return. -/
def parseRest (scheme : GoString) (forceQuery : Bool) (rawQuery : GoString)
    (rest0 : GoString) (viaRequest : Bool) : Except GoString URL :=
  if (scheme != [] || (!viaRequest && !([47, 47, 47].isPrefixOf rest0))) &&
     [47, 47].isPrefixOf rest0 then  -- "//"
    let p := goSplit (rest0.drop 2) 47 false
    match parseAuthority p.1 with
    | .error e => .error e
    | .ok uh => do
      let pf ← setPathFields p.2
      .ok { Scheme := scheme, User := uh.1, Host := uh.2,
            Path := pf.1, RawPath := pf.2,
            ForceQuery := forceQuery, RawQuery := rawQuery }
  else do
    let omitHost := scheme != [] && [47].isPrefixOf rest0
    let pf ← setPathFields rest0
    .ok { Scheme := scheme, OmitHost := omitHost,
          Path := pf.1, RawPath := pf.2,
          ForceQuery := forceQuery, RawQuery := rawQuery }

/-- Go `net/url.parse(rawURL, viaRequest)`: everything of `Parse` except the
fragment handling. -/
def parseInner (rawURL : GoString) (viaRequest : Bool) : Except GoString URL :=
  if stringContainsCTLByte rawURL then
    .error (goStr "invalid control character in URL")
  else if rawURL == [] && viaRequest then .error (goStr "empty url")
  else if rawURL == goStr "*" then .ok { Path := goStr "*" }
  else do
    let sr ← getScheme rawURL
    let scheme := sr.1.map toLowerByte
    let qp :=
      if sr.2.getLast? == some 63 && !((sr.2.dropLast).contains 63) then
        -- trailing lone '?': ForceQuery
        (sr.2.dropLast, true, ([] : GoString))
      else
        let p := goSplit sr.2 63 true  -- '?'
        (p.1, false, p.2)
    let rest0 := qp.1
    let forceQuery := qp.2.1
    let rawQuery := qp.2.2
    if !([47].isPrefixOf rest0) then  -- '/'
      if scheme != [] then
        -- rootless path with a scheme: RFC 3986 opaque part
        .ok { Scheme := scheme, Opq := rest0,
              ForceQuery := forceQuery, RawQuery := rawQuery }
      else if viaRequest then .error (goStr "invalid URI for request")
      else
        let segment := (goSplit rest0 47 true).1
        if segment.contains 58 then  -- ':'
          .error (goStr "first path segment in URL cannot contain colon")
        else parseRest scheme forceQuery rawQuery rest0 viaRequest
    else parseRest scheme forceQuery rawQuery rest0 viaRequest

/-- Go `net/url.Parse`: cut off the fragment, parse the rest, then set the
fragment fields. -/
def Parse (rawURL : GoString) : Except GoString URL :=
  let p := goSplit rawURL 35 true  -- '#'
  match parseInner p.1 false with
  | .error e => .error e
  | .ok u =>
    if p.2 == [] then .ok u
    else
      match setFragmentFields p.2 with
      | .error e => .error e
      | .ok fr => .ok { u with Fragment := fr.1, RawFragment := fr.2 }

/-- Go `(*Userinfo).String`. -/
def userinfoString (ui : Userinfo) : GoString :=
  escape ui.username .userPassword ++
    (if ui.passwordSet then 58 :: escape ui.password .userPassword else [])

/-- Go `(*URL).EscapedPath`. -/
def escapedPath (u : URL) : GoString :=
  if u.RawPath != [] && validEncoded u.RawPath .path &&
     (match unescape u.RawPath .path with
      | .ok p => p == u.Path
      | .error _ => false) then
    u.RawPath
  else if u.Path == goStr "*" then goStr "*"
  else escape u.Path .path

/-- Go `(*URL).EscapedFragment`. -/
def escapedFragment (u : URL) : GoString :=
  if u.RawFragment != [] && validEncoded u.RawFragment .fragment &&
     (match unescape u.RawFragment .fragment with
      | .ok f => f == u.Fragment
      | .error _ => false) then
    u.RawFragment
  else escape u.Fragment .fragment

/-- Go `(*URL).String`: reassemble `scheme:opaque?query#fragment` or
`scheme://userinfo@host/path?query#fragment`. -/
def String (u : URL) : GoString :=
  let buf1 := if u.Scheme != [] then u.Scheme ++ [58] else []
  let core :=
    if u.Opq != [] then buf1 ++ u.Opq
    else
      let auth :=
        if u.Scheme != [] || u.Host != [] || u.User.isSome then
          if u.OmitHost && u.Host == [] && u.User.isNone then []
          else
            (if u.Host != [] || u.Path != [] || u.User.isSome then
              [47, 47] else []) ++
            (match u.User with
             | some ui => userinfoString ui ++ [64]
             | none => []) ++
            escape u.Host .host
        else []
      let p := escapedPath u
      let p2 :=
        if p != [] && p.head? != some 47 && u.Host != [] then 47 :: p else p
      let pre := buf1 ++ auth
      if pre == [] then
        if ((goSplit p 47 false).1).contains 58 then goStr "./" ++ p2
        else p2
      else pre ++ p2
  core ++ (if u.ForceQuery || u.RawQuery != [] then 63 :: u.RawQuery else []) ++
    (if u.Fragment != [] then 35 :: escapedFragment u else [])

end url

namespace maritacaclient

/-- Modelled from the spec: the nested `GenerationParameters` entity
(`maritacaclient.Options`, declared in the client package that is not part
of the provided sources; its field names appear in the assignments of
`options.go` and its field meanings and types in §3 of the spec). -/
structure Options where
  ChatMode : Bool
  MaxTokens : Int
  DoSample : Bool
  Temperature : Rat
  TopP : Rat
  RepetitionPenalty : Rat
  StoppingTokens : List GoString
  Stream : Bool
  NumTokensPerMessage : Int
  Token : GoString
deriving DecidableEq

end maritacaclient

/-- Abstract handle for a Go `*http.Client`: the configuration layer only
stores it, never inspects it. -/
structure HTTPClient where
  id : Nat
deriving DecidableEq

namespace maritaca

/-- The `options` struct of `options.go`. `nil` pointers (`*url.URL`,
`*http.Client`) are modelled as `none`. -/
structure options where
  maritacaServerURL : Option url.URL
  httpClient : Option HTTPClient
  model : GoString
  maritacaOptions : maritacaclient.Options
  customModelTemplate : GoString
  system : GoString
  format : GoString
deriving DecidableEq

/-- The Go type `Option func(*options)`. Applying a modifier either yields
the mutated options value or — only on the `log.Fatal` path of
`WithServerURL` — terminates the process, modelled as `.error`. -/
abbrev Opt := options → Except GoString options

/-- Go `WithModel`: set the model to use. -/
def WithModel (model : GoString) : Opt := fun opts =>
  .ok { opts with model := model }

/-- Go `WithFormat`: set the maritaca output format. -/
def WithFormat (format : GoString) : Opt := fun opts =>
  .ok { opts with format := format }

/-- Go `WithSystemPrompt`: set the system prompt. -/
def WithSystemPrompt (p : GoString) : Opt := fun opts =>
  .ok { opts with system := p }

/-- Go `WithCustomTemplate`: override the model-side templating. -/
def WithCustomTemplate (template : GoString) : Opt := fun opts =>
  .ok { opts with customModelTemplate := template }

/-- Go `WithServerURL`: parse `rawURL` and store it; on a parse error the
code calls `log.Fatal(err)`, i.e. the process terminates (`.error`). -/
def WithServerURL (rawURL : GoString) : Opt := fun opts =>
  match url.Parse rawURL with
  | .ok u => .ok { opts with maritacaServerURL := some u }
  | .error err => .error err

/-- Go `WithHTTPClient`: set a custom http client. -/
def WithHTTPClient (client : HTTPClient) : Opt := fun opts =>
  .ok { opts with httpClient := some client }

/-- Go `WithChatMode`: set the chat mode. -/
def WithChatMode (chatMode : Bool) : Opt := fun opts =>
  .ok { opts with maritacaOptions := { opts.maritacaOptions with ChatMode := chatMode } }

/-- Go `WithMaxTokens`: set the maximum number of generated tokens. -/
def WithMaxTokens (maxTokens : Int) : Opt := fun opts =>
  .ok { opts with maritacaOptions := { opts.maritacaOptions with MaxTokens := maxTokens } }

/-- Go `WithDoSample`: enable or disable sampling. -/
def WithDoSample (doSample : Bool) : Opt := fun opts =>
  .ok { opts with maritacaOptions := { opts.maritacaOptions with DoSample := doSample } }

/-- Go `WithTemperature`: set the sampling temperature. -/
def WithTemperature (temperature : Rat) : Opt := fun opts =>
  .ok { opts with maritacaOptions := { opts.maritacaOptions with Temperature := temperature } }

/-- Go `WithTopP`: set the nucleus-sampling threshold. -/
def WithTopP (topP : Rat) : Opt := fun opts =>
  .ok { opts with maritacaOptions := { opts.maritacaOptions with TopP := topP } }

/-- Go `WithRepetitionPenalty`: set the repetition penalty. -/
def WithRepetitionPenalty (repetitionPenalty : Rat) : Opt := fun opts =>
  .ok { opts with maritacaOptions := { opts.maritacaOptions with RepetitionPenalty := repetitionPenalty } }

/-- Go `WithStoppingTokens`: set the list of stopping tokens. -/
def WithStoppingTokens (tokens : List GoString) : Opt := fun opts =>
  .ok { opts with maritacaOptions := { opts.maritacaOptions with StoppingTokens := tokens } }

/-- Go `WithStream`: enable or disable streaming mode. -/
def WithStream (stream : Bool) : Opt := fun opts =>
  .ok { opts with maritacaOptions := { opts.maritacaOptions with Stream := stream } }

/-- Go `WithTokensPerMessage`: set the tokens returned per message. -/
def WithTokensPerMessage (tokensPerMessage : Int) : Opt := fun opts =>
  .ok { opts with maritacaOptions := { opts.maritacaOptions with NumTokensPerMessage := tokensPerMessage } }

/-- Go `WithToken`: set the access token. -/
def WithToken (token : GoString) : Opt := fun opts =>
  .ok { opts with maritacaOptions := { opts.maritacaOptions with Token := token } }

/-- Syntax of the fixed modifier catalogue of `options.go`, one constructor
per `With...` function, so that ordered sequences of modifiers can be
quantified over. -/
inductive Mod where
  | withModel (model : GoString)
  | withFormat (format : GoString)
  | withSystemPrompt (p : GoString)
  | withCustomTemplate (template : GoString)
  | withServerURL (rawURL : GoString)
  | withHTTPClient (client : HTTPClient)
  | withChatMode (chatMode : Bool)
  | withMaxTokens (maxTokens : Int)
  | withDoSample (doSample : Bool)
  | withTemperature (temperature : Rat)
  | withTopP (topP : Rat)
  | withRepetitionPenalty (repetitionPenalty : Rat)
  | withStoppingTokens (tokens : List GoString)
  | withStream (stream : Bool)
  | withTokensPerMessage (tokensPerMessage : Int)
  | withToken (token : GoString)
deriving DecidableEq

/-- Interpretation of a catalogue entry by the corresponding `With...`
function of `options.go`. -/
def applyMod : Mod → Opt
  | .withModel s => WithModel s
  | .withFormat s => WithFormat s
  | .withSystemPrompt s => WithSystemPrompt s
  | .withCustomTemplate s => WithCustomTemplate s
  | .withServerURL s => WithServerURL s
  | .withHTTPClient c => WithHTTPClient c
  | .withChatMode b => WithChatMode b
  | .withMaxTokens n => WithMaxTokens n
  | .withDoSample b => WithDoSample b
  | .withTemperature t => WithTemperature t
  | .withTopP t => WithTopP t
  | .withRepetitionPenalty t => WithRepetitionPenalty t
  | .withStoppingTokens ts => WithStoppingTokens ts
  | .withStream b => WithStream b
  | .withTokensPerMessage n => WithTokensPerMessage n
  | .withToken s => WithToken s

/-- Modelled from the spec: a freshly-defaulted Configuration. The
constructor that builds the base value lives outside the provided sources;
§3 of the spec documents the defaults (chatMode=true, doSample=true,
temperature=0.7, topP=0.95, repetitionPenalty=1, stream=false,
tokensPerMessage=4), with every remaining field empty/unset. -/
def defaultOptions : options where
  maritacaServerURL := none
  httpClient := none
  model := []
  maritacaOptions :=
    { ChatMode := true
      MaxTokens := 0
      DoSample := true
      Temperature := 0.7
      TopP := 0.95
      RepetitionPenalty := 1
      StoppingTokens := []
      Stream := false
      NumTokensPerMessage := 4
      Token := [] }
  customModelTemplate := []
  system := []
  format := []

/-- Modelled from the spec: the aggregation mechanism — apply a
caller-supplied ordered list of modifiers to a configuration value, each
operating on the result of the previous one; a fatal modifier aborts. -/
def applyOptions : List Mod → options → Except GoString options
  | [], o => .ok o
  | m :: ms, o =>
    match applyMod m o with
    | .ok o₁ => applyOptions ms o₁
    | .error e => .error e

/-- Whether a catalogue entry is the server-endpoint modifier (the only one
with a fatal path). -/
def isServerURLMod : Mod → Bool
  | .withServerURL _ => true
  | _ => false

/-- The value a modifier writes to the `model` field, if it touches it. -/
def setsModel : Mod → Option GoString
  | .withModel s => some s
  | _ => none

/-- The value a modifier writes to the `format` field, if it touches it. -/
def setsFormat : Mod → Option GoString
  | .withFormat s => some s
  | _ => none

/-- The value a modifier writes to the `system` field, if it touches it. -/
def setsSystem : Mod → Option GoString
  | .withSystemPrompt s => some s
  | _ => none

/-- The value a modifier writes to `customModelTemplate`, if it touches it. -/
def setsCustomTemplate : Mod → Option GoString
  | .withCustomTemplate s => some s
  | _ => none

/-- The raw URL string a modifier hands to the endpoint parser, if any. -/
def setsServerURL : Mod → Option GoString
  | .withServerURL s => some s
  | _ => none

/-- The value a modifier writes to the `httpClient` field, if it touches it. -/
def setsHTTPClient : Mod → Option HTTPClient
  | .withHTTPClient c => some c
  | _ => none

/-- The value a modifier writes to `ChatMode`, if it touches it. -/
def setsChatMode : Mod → Option Bool
  | .withChatMode b => some b
  | _ => none

/-- The value a modifier writes to `MaxTokens`, if it touches it. -/
def setsMaxTokens : Mod → Option Int
  | .withMaxTokens n => some n
  | _ => none

/-- The value a modifier writes to `DoSample`, if it touches it. -/
def setsDoSample : Mod → Option Bool
  | .withDoSample b => some b
  | _ => none

/-- The value a modifier writes to `Temperature`, if it touches it. -/
def setsTemperature : Mod → Option Rat
  | .withTemperature t => some t
  | _ => none

/-- The value a modifier writes to `TopP`, if it touches it. -/
def setsTopP : Mod → Option Rat
  | .withTopP t => some t
  | _ => none

/-- The value a modifier writes to `RepetitionPenalty`, if it touches it. -/
def setsRepetitionPenalty : Mod → Option Rat
  | .withRepetitionPenalty t => some t
  | _ => none

/-- The value a modifier writes to `StoppingTokens`, if it touches it. -/
def setsStoppingTokens : Mod → Option (List GoString)
  | .withStoppingTokens ts => some ts
  | _ => none

/-- The value a modifier writes to `Stream`, if it touches it. -/
def setsStream : Mod → Option Bool
  | .withStream b => some b
  | _ => none

/-- The value a modifier writes to `NumTokensPerMessage`, if it touches it. -/
def setsTokensPerMessage : Mod → Option Int
  | .withTokensPerMessage n => some n
  | _ => none

/-- The value a modifier writes to `Token`, if it touches it. -/
def setsToken : Mod → Option GoString
  | .withToken s => some s
  | _ => none

/-- The value written by the last modifier of the sequence that touches the
field observed through `f`, if any modifier touches it. -/
def lastTouch {α : Type} (f : Mod → Option α) : List Mod → Option α
  | [] => none
  | m :: ms =>
    match lastTouch f ms with
    | some v => some v
    | none => f m

/-- Last-write-wins field specification: every field of `o'` equals the
value written by the last modifier in `ms` that touches it, and fields
untouched by any modifier keep the corresponding field of `base`. The
server-endpoint field holds the parse of the last raw URL supplied. -/
def fieldsSpec (ms : List Mod) (base o' : options) : Prop :=
  o'.model = (lastTouch setsModel ms).getD base.model ∧
  o'.format = (lastTouch setsFormat ms).getD base.format ∧
  o'.system = (lastTouch setsSystem ms).getD base.system ∧
  o'.customModelTemplate =
    (lastTouch setsCustomTemplate ms).getD base.customModelTemplate ∧
  o'.httpClient =
    (match lastTouch setsHTTPClient ms with
     | none => base.httpClient
     | some c => some c) ∧
  o'.maritacaServerURL =
    (match lastTouch setsServerURL ms with
     | none => base.maritacaServerURL
     | some raw => (url.Parse raw).toOption) ∧
  o'.maritacaOptions.ChatMode =
    (lastTouch setsChatMode ms).getD base.maritacaOptions.ChatMode ∧
  o'.maritacaOptions.MaxTokens =
    (lastTouch setsMaxTokens ms).getD base.maritacaOptions.MaxTokens ∧
  o'.maritacaOptions.DoSample =
    (lastTouch setsDoSample ms).getD base.maritacaOptions.DoSample ∧
  o'.maritacaOptions.Temperature =
    (lastTouch setsTemperature ms).getD base.maritacaOptions.Temperature ∧
  o'.maritacaOptions.TopP =
    (lastTouch setsTopP ms).getD base.maritacaOptions.TopP ∧
  o'.maritacaOptions.RepetitionPenalty =
    (lastTouch setsRepetitionPenalty ms).getD base.maritacaOptions.RepetitionPenalty ∧
  o'.maritacaOptions.StoppingTokens =
    (lastTouch setsStoppingTokens ms).getD base.maritacaOptions.StoppingTokens ∧
  o'.maritacaOptions.Stream =
    (lastTouch setsStream ms).getD base.maritacaOptions.Stream ∧
  o'.maritacaOptions.NumTokensPerMessage =
    (lastTouch setsTokensPerMessage ms).getD base.maritacaOptions.NumTokensPerMessage ∧
  o'.maritacaOptions.Token =
    (lastTouch setsToken ms).getD base.maritacaOptions.Token

/-- Agreement of two generation-parameter records on every field except
possibly the one named by the index (0 = ChatMode, 1 = MaxTokens,
2 = DoSample, 3 = Temperature, 4 = TopP, 5 = RepetitionPenalty,
6 = StoppingTokens, 7 = Stream, 8 = NumTokensPerMessage, 9 = Token). -/
def nestedAgreeExcept (k : Nat) (g g' : maritacaclient.Options) : Prop :=
  (k ≠ 0 → g'.ChatMode = g.ChatMode) ∧
  (k ≠ 1 → g'.MaxTokens = g.MaxTokens) ∧
  (k ≠ 2 → g'.DoSample = g.DoSample) ∧
  (k ≠ 3 → g'.Temperature = g.Temperature) ∧
  (k ≠ 4 → g'.TopP = g.TopP) ∧
  (k ≠ 5 → g'.RepetitionPenalty = g.RepetitionPenalty) ∧
  (k ≠ 6 → g'.StoppingTokens = g.StoppingTokens) ∧
  (k ≠ 7 → g'.Stream = g.Stream) ∧
  (k ≠ 8 → g'.NumTokensPerMessage = g.NumTokensPerMessage) ∧
  (k ≠ 9 → g'.Token = g.Token)

/-- Agreement of two options records on every top-level field except
possibly the one named by the index (0 = maritacaServerURL, 1 = httpClient,
2 = model, 3 = maritacaOptions, 4 = customModelTemplate, 5 = system,
6 = format). -/
def outerAgreeExcept (k : Nat) (o o' : options) : Prop :=
  (k ≠ 0 → o'.maritacaServerURL = o.maritacaServerURL) ∧
  (k ≠ 1 → o'.httpClient = o.httpClient) ∧
  (k ≠ 2 → o'.model = o.model) ∧
  (k ≠ 3 → o'.maritacaOptions = o.maritacaOptions) ∧
  (k ≠ 4 → o'.customModelTemplate = o.customModelTemplate) ∧
  (k ≠ 5 → o'.system = o.system) ∧
  (k ≠ 6 → o'.format = o.format)

/-- Frame condition of one modifier application: only the modifier's own
target field may change; every other top-level field — and, for the
generation-parameter modifiers, every other nested field — is untouched. -/
def framePreserved : Mod → options → options → Prop
  | .withModel _, o, o' => outerAgreeExcept 2 o o'
  | .withFormat _, o, o' => outerAgreeExcept 6 o o'
  | .withSystemPrompt _, o, o' => outerAgreeExcept 5 o o'
  | .withCustomTemplate _, o, o' => outerAgreeExcept 4 o o'
  | .withServerURL _, o, o' => outerAgreeExcept 0 o o'
  | .withHTTPClient _, o, o' => outerAgreeExcept 1 o o'
  | .withChatMode _, o, o' =>
    outerAgreeExcept 3 o o' ∧ nestedAgreeExcept 0 o.maritacaOptions o'.maritacaOptions
  | .withMaxTokens _, o, o' =>
    outerAgreeExcept 3 o o' ∧ nestedAgreeExcept 1 o.maritacaOptions o'.maritacaOptions
  | .withDoSample _, o, o' =>
    outerAgreeExcept 3 o o' ∧ nestedAgreeExcept 2 o.maritacaOptions o'.maritacaOptions
  | .withTemperature _, o, o' =>
    outerAgreeExcept 3 o o' ∧ nestedAgreeExcept 3 o.maritacaOptions o'.maritacaOptions
  | .withTopP _, o, o' =>
    outerAgreeExcept 3 o o' ∧ nestedAgreeExcept 4 o.maritacaOptions o'.maritacaOptions
  | .withRepetitionPenalty _, o, o' =>
    outerAgreeExcept 3 o o' ∧ nestedAgreeExcept 5 o.maritacaOptions o'.maritacaOptions
  | .withStoppingTokens _, o, o' =>
    outerAgreeExcept 3 o o' ∧ nestedAgreeExcept 6 o.maritacaOptions o'.maritacaOptions
  | .withStream _, o, o' =>
    outerAgreeExcept 3 o o' ∧ nestedAgreeExcept 7 o.maritacaOptions o'.maritacaOptions
  | .withTokensPerMessage _, o, o' =>
    outerAgreeExcept 3 o o' ∧ nestedAgreeExcept 8 o.maritacaOptions o'.maritacaOptions
  | .withToken _, o, o' =>
    outerAgreeExcept 3 o o' ∧ nestedAgreeExcept 9 o.maritacaOptions o'.maritacaOptions

/-- The record produced by one successful modifier application (proved to
agree with `applyMod` in `applyMod_ok` below). -/
def stepResult : Mod → options → options
  | .withModel s, o => { o with model := s }
  | .withFormat s, o => { o with format := s }
  | .withSystemPrompt s, o => { o with system := s }
  | .withCustomTemplate s, o => { o with customModelTemplate := s }
  | .withServerURL raw, o => { o with maritacaServerURL := (url.Parse raw).toOption }
  | .withHTTPClient c, o => { o with httpClient := some c }
  | .withChatMode b, o =>
    { o with maritacaOptions := { o.maritacaOptions with ChatMode := b } }
  | .withMaxTokens n, o =>
    { o with maritacaOptions := { o.maritacaOptions with MaxTokens := n } }
  | .withDoSample b, o =>
    { o with maritacaOptions := { o.maritacaOptions with DoSample := b } }
  | .withTemperature t, o =>
    { o with maritacaOptions := { o.maritacaOptions with Temperature := t } }
  | .withTopP t, o =>
    { o with maritacaOptions := { o.maritacaOptions with TopP := t } }
  | .withRepetitionPenalty t, o =>
    { o with maritacaOptions := { o.maritacaOptions with RepetitionPenalty := t } }
  | .withStoppingTokens ts, o =>
    { o with maritacaOptions := { o.maritacaOptions with StoppingTokens := ts } }
  | .withStream b, o =>
    { o with maritacaOptions := { o.maritacaOptions with Stream := b } }
  | .withTokensPerMessage n, o =>
    { o with maritacaOptions := { o.maritacaOptions with NumTokensPerMessage := n } }
  | .withToken s, o =>
    { o with maritacaOptions := { o.maritacaOptions with Token := s } }

end maritaca

namespace maritaca

theorem applyMod_ok (m : Mod) (o o₁ : options) (h : applyMod m o = .ok o₁) :
    o₁ = stepResult m o := by
  cases m <;>
    first
    | (simp only [applyMod, WithModel, WithFormat, WithSystemPrompt,
        WithCustomTemplate, WithHTTPClient, WithChatMode, WithMaxTokens,
        WithDoSample, WithTemperature, WithTopP, WithRepetitionPenalty,
        WithStoppingTokens, WithStream, WithTokensPerMessage, WithToken,
        Except.ok.injEq] at h
       subst h
       rfl)
    | (rename_i raw
       simp only [applyMod, WithServerURL] at h
       cases hp : url.Parse raw with
       | ok u =>
         rw [hp] at h
         simp only [Except.ok.injEq] at h
         subst h
         simp [stepResult, hp, Except.toOption]
       | error e => rw [hp] at h; exact absurd h (by simp))

theorem applyMod_nonfatal (m : Mod) (o : options) (h : isServerURLMod m = false) :
    applyMod m o = .ok (stepResult m o) := by
  cases m <;> first
    | rfl
    | simp [isServerURLMod] at h

theorem step_model (m : Mod) (o : options) :
    (stepResult m o).model = (setsModel m).getD o.model := by
  cases m <;> rfl

theorem step_format (m : Mod) (o : options) :
    (stepResult m o).format = (setsFormat m).getD o.format := by
  cases m <;> rfl

theorem step_system (m : Mod) (o : options) :
    (stepResult m o).system = (setsSystem m).getD o.system := by
  cases m <;> rfl

theorem step_customTemplate (m : Mod) (o : options) :
    (stepResult m o).customModelTemplate =
      (setsCustomTemplate m).getD o.customModelTemplate := by
  cases m <;> rfl

theorem step_httpClient (m : Mod) (o : options) :
    (stepResult m o).httpClient =
      (match setsHTTPClient m with
       | none => o.httpClient
       | some c => some c) := by
  cases m <;> rfl

theorem step_serverURL (m : Mod) (o : options) :
    (stepResult m o).maritacaServerURL =
      (match setsServerURL m with
       | none => o.maritacaServerURL
       | some raw => (url.Parse raw).toOption) := by
  cases m <;> rfl

theorem step_chatMode (m : Mod) (o : options) :
    (stepResult m o).maritacaOptions.ChatMode =
      (setsChatMode m).getD o.maritacaOptions.ChatMode := by
  cases m <;> rfl

theorem step_maxTokens (m : Mod) (o : options) :
    (stepResult m o).maritacaOptions.MaxTokens =
      (setsMaxTokens m).getD o.maritacaOptions.MaxTokens := by
  cases m <;> rfl

theorem step_doSample (m : Mod) (o : options) :
    (stepResult m o).maritacaOptions.DoSample =
      (setsDoSample m).getD o.maritacaOptions.DoSample := by
  cases m <;> rfl

theorem step_temperature (m : Mod) (o : options) :
    (stepResult m o).maritacaOptions.Temperature =
      (setsTemperature m).getD o.maritacaOptions.Temperature := by
  cases m <;> rfl

theorem step_topP (m : Mod) (o : options) :
    (stepResult m o).maritacaOptions.TopP =
      (setsTopP m).getD o.maritacaOptions.TopP := by
  cases m <;> rfl

theorem step_repetitionPenalty (m : Mod) (o : options) :
    (stepResult m o).maritacaOptions.RepetitionPenalty =
      (setsRepetitionPenalty m).getD o.maritacaOptions.RepetitionPenalty := by
  cases m <;> rfl

theorem step_stoppingTokens (m : Mod) (o : options) :
    (stepResult m o).maritacaOptions.StoppingTokens =
      (setsStoppingTokens m).getD o.maritacaOptions.StoppingTokens := by
  cases m <;> rfl

theorem step_stream (m : Mod) (o : options) :
    (stepResult m o).maritacaOptions.Stream =
      (setsStream m).getD o.maritacaOptions.Stream := by
  cases m <;> rfl

theorem step_tokensPerMessage (m : Mod) (o : options) :
    (stepResult m o).maritacaOptions.NumTokensPerMessage =
      (setsTokensPerMessage m).getD o.maritacaOptions.NumTokensPerMessage := by
  cases m <;> rfl

theorem step_token (m : Mod) (o : options) :
    (stepResult m o).maritacaOptions.Token =
      (setsToken m).getD o.maritacaOptions.Token := by
  cases m <;> rfl

/-- Generic last-write-wins lemma for a `getD`-shaped field observer. -/
theorem lastTouch_field {α : Type} (get : options → α) (sets : Mod → Option α)
    (comm : ∀ m o, get (stepResult m o) = (sets m).getD (get o)) :
    ∀ (ms : List Mod) (o o' : options),
      applyOptions ms o = .ok o' → get o' = (lastTouch sets ms).getD (get o) := by
  intro ms
  induction ms with
  | nil =>
    intro o o' h
    simp only [applyOptions, Except.ok.injEq] at h
    subst h
    rfl
  | cons m ms ih =>
    intro o o' h
    simp only [applyOptions] at h
    cases hm : applyMod m o with
    | error e => rw [hm] at h; exact absurd h (by simp)
    | ok o₁ =>
      rw [hm] at h
      have h₁ := ih o₁ o' h
      have h₂ : get o₁ = (sets m).getD (get o) := by
        rw [applyMod_ok m o o₁ hm]; exact comm m o
      rw [h₁, h₂]
      cases hL : lastTouch sets ms with
      | some v => simp [lastTouch, hL]
      | none => simp only [lastTouch, hL, Option.getD_none]

/-- Pushing a map through `lastTouch`. -/
theorem lastTouch_map {α β : Type} (f : Mod → Option α) (g : α → β) :
    ∀ ms : List Mod,
      lastTouch (fun m => (f m).map g) ms = (lastTouch f ms).map g := by
  intro ms
  induction ms with
  | nil => rfl
  | cons m ms ih =>
    simp only [lastTouch, ih]
    cases lastTouch f ms <;> simp

/-- Last-write-wins for the parsed server-endpoint field. -/
theorem lastTouch_serverURL :
    ∀ (ms : List Mod) (o o' : options),
      applyOptions ms o = .ok o' →
      o'.maritacaServerURL =
        (match lastTouch setsServerURL ms with
         | none => o.maritacaServerURL
         | some raw => (url.Parse raw).toOption) := by
  intro ms
  induction ms with
  | nil =>
    intro o o' h
    simp only [applyOptions, Except.ok.injEq] at h
    subst h
    rfl
  | cons m ms ih =>
    intro o o' h
    simp only [applyOptions] at h
    cases hm : applyMod m o with
    | error e => rw [hm] at h; exact absurd h (by simp)
    | ok o₁ =>
      rw [hm] at h
      obtain rfl := applyMod_ok m o o₁ hm
      have h₁ := ih (stepResult m o) o' h
      rw [h₁, step_serverURL m o]
      cases hL : lastTouch setsServerURL ms with
      | some v => simp [lastTouch, hL]
      | none => simp only [lastTouch, hL]

end maritaca

/-- C1: for every ordered modifier sequence whose application to a
freshly-defaulted Configuration completes (no fatal abort), each field of
the result equals the value written by the last modifier that touches it
(the endpoint field holding the parse of the last raw URL supplied), every
untouched field keeps its base value, and the base carries the documented
defaults chatMode=true, doSample=true, temperature=0.7, topP=0.95,
repetitionPenalty=1, stream=false, tokensPerMessage=4. -/
theorem last_write_wins (ms : List maritaca.Mod) (o' : maritaca.options)
    (h : maritaca.applyOptions ms maritaca.defaultOptions = .ok o') :
    maritaca.fieldsSpec ms maritaca.defaultOptions o' ∧
    maritaca.defaultOptions.maritacaOptions.ChatMode = true ∧
    maritaca.defaultOptions.maritacaOptions.DoSample = true ∧
    maritaca.defaultOptions.maritacaOptions.Temperature = 0.7 ∧
    maritaca.defaultOptions.maritacaOptions.TopP = 0.95 ∧
    maritaca.defaultOptions.maritacaOptions.RepetitionPenalty = 1 ∧
    maritaca.defaultOptions.maritacaOptions.Stream = false ∧
    maritaca.defaultOptions.maritacaOptions.NumTokensPerMessage = 4 := by
  refine ⟨⟨?_, ?_, ?_, ?_, ?_, ?_, ?_, ?_, ?_, ?_, ?_, ?_, ?_, ?_, ?_, ?_⟩,
    rfl, rfl, rfl, rfl, rfl, rfl, rfl⟩
  · exact maritaca.lastTouch_field _ _ maritaca.step_model ms _ _ h
  · exact maritaca.lastTouch_field _ _ maritaca.step_format ms _ _ h
  · exact maritaca.lastTouch_field _ _ maritaca.step_system ms _ _ h
  · exact maritaca.lastTouch_field _ _ maritaca.step_customTemplate ms _ _ h
  · have hc : o'.httpClient =
        (maritaca.lastTouch (fun m => (maritaca.setsHTTPClient m).map some) ms).getD
          maritaca.defaultOptions.httpClient :=
      maritaca.lastTouch_field (fun o => o.httpClient)
        (fun m => (maritaca.setsHTTPClient m).map some)
        (by intro m o; cases m <;> rfl) ms _ _ h
    rw [hc, maritaca.lastTouch_map]
    cases maritaca.lastTouch maritaca.setsHTTPClient ms <;> simp
  · exact maritaca.lastTouch_serverURL ms _ _ h
  · exact maritaca.lastTouch_field (fun o => o.maritacaOptions.ChatMode)
      maritaca.setsChatMode maritaca.step_chatMode ms _ _ h
  · exact maritaca.lastTouch_field (fun o => o.maritacaOptions.MaxTokens)
      maritaca.setsMaxTokens maritaca.step_maxTokens ms _ _ h
  · exact maritaca.lastTouch_field (fun o => o.maritacaOptions.DoSample)
      maritaca.setsDoSample maritaca.step_doSample ms _ _ h
  · exact maritaca.lastTouch_field (fun o => o.maritacaOptions.Temperature)
      maritaca.setsTemperature maritaca.step_temperature ms _ _ h
  · exact maritaca.lastTouch_field (fun o => o.maritacaOptions.TopP)
      maritaca.setsTopP maritaca.step_topP ms _ _ h
  · exact maritaca.lastTouch_field (fun o => o.maritacaOptions.RepetitionPenalty)
      maritaca.setsRepetitionPenalty maritaca.step_repetitionPenalty ms _ _ h
  · exact maritaca.lastTouch_field (fun o => o.maritacaOptions.StoppingTokens)
      maritaca.setsStoppingTokens maritaca.step_stoppingTokens ms _ _ h
  · exact maritaca.lastTouch_field (fun o => o.maritacaOptions.Stream)
      maritaca.setsStream maritaca.step_stream ms _ _ h
  · exact maritaca.lastTouch_field (fun o => o.maritacaOptions.NumTokensPerMessage)
      maritaca.setsTokensPerMessage maritaca.step_tokensPerMessage ms _ _ h
  · exact maritaca.lastTouch_field (fun o => o.maritacaOptions.Token)
      maritaca.setsToken maritaca.step_token ms _ _ h

theorem last_write_wins_witness :
    maritaca.applyOptions
        [.withModel (goStr "a"), .withModel (goStr "b")] maritaca.defaultOptions =
      .ok { maritaca.defaultOptions with model := goStr "b" } ∧
    maritaca.fieldsSpec [.withModel (goStr "a"), .withModel (goStr "b")]
      maritaca.defaultOptions { maritaca.defaultOptions with model := goStr "b" } :=
  ⟨rfl, (last_write_wins [.withModel (goStr "a"), .withModel (goStr "b")]
    { maritaca.defaultOptions with model := goStr "b" } rfl).1⟩

/-- C3: applying zero modifiers to a freshly-defaulted Configuration yields
the pure-default value, whose documented defaults are chatMode=true,
doSample=true, temperature=0.7, topP=0.95, repetitionPenalty=1,
stream=false, tokensPerMessage=4. -/
theorem zero_modifiers_default :
    maritaca.applyOptions [] maritaca.defaultOptions = .ok maritaca.defaultOptions ∧
    maritaca.defaultOptions.maritacaOptions.ChatMode = true ∧
    maritaca.defaultOptions.maritacaOptions.DoSample = true ∧
    maritaca.defaultOptions.maritacaOptions.Temperature = 0.7 ∧
    maritaca.defaultOptions.maritacaOptions.TopP = 0.95 ∧
    maritaca.defaultOptions.maritacaOptions.RepetitionPenalty = 1 ∧
    maritaca.defaultOptions.maritacaOptions.Stream = false ∧
    maritaca.defaultOptions.maritacaOptions.NumTokensPerMessage = 4 :=
  ⟨rfl, rfl, rfl, rfl, rfl, rfl, rfl, rfl⟩

/-- C5: every modifier adjusts exactly one semantic concern — a successful
application changes at most its own target field, leaving every other
top-level field and every other nested generation parameter unchanged (the
only effect beyond the returned record being the fatal path of
`WithServerURL`, which yields no record at all). -/
theorem modifier_frame (m : maritaca.Mod) (o o' : maritaca.options)
    (h : maritaca.applyMod m o = .ok o') :
    maritaca.framePreserved m o o' := by
  obtain rfl := maritaca.applyMod_ok m o o' h
  cases m <;>
    simp [maritaca.stepResult, maritaca.framePreserved,
      maritaca.outerAgreeExcept, maritaca.nestedAgreeExcept]

theorem modifier_frame_witness :
    maritaca.applyMod (.withChatMode false) maritaca.defaultOptions =
      .ok (maritaca.stepResult (.withChatMode false) maritaca.defaultOptions) ∧
    maritaca.framePreserved (.withChatMode false) maritaca.defaultOptions
      (maritaca.stepResult (.withChatMode false) maritaca.defaultOptions) :=
  ⟨rfl, modifier_frame (.withChatMode false) maritaca.defaultOptions
    (maritaca.stepResult (.withChatMode false) maritaca.defaultOptions) rfl⟩

/-- C6: setting the stopping tokens to the empty sequence and then to a
non-empty sequence leaves the configuration holding exactly the non-empty
sequence — the modifier replaces the list, it does not accumulate. -/
theorem stopping_tokens_replace (o : maritaca.options) (ts : List GoString)
    (_h : ts ≠ []) :
    ∃ o' : maritaca.options,
      maritaca.applyOptions [.withStoppingTokens [], .withStoppingTokens ts] o =
        .ok o' ∧
      o'.maritacaOptions.StoppingTokens = ts :=
  ⟨_, rfl, rfl⟩

theorem stopping_tokens_replace_witness :
    [goStr "stop"] ≠ ([] : List GoString) ∧
    ∃ o' : maritaca.options,
      maritaca.applyOptions
          [.withStoppingTokens [], .withStoppingTokens [goStr "stop"]]
          maritaca.defaultOptions = .ok o' ∧
      o'.maritacaOptions.StoppingTokens = [goStr "stop"] :=
  ⟨by decide, stopping_tokens_replace maritaca.defaultOptions [goStr "stop"] (by decide)⟩

/-- C7: the concrete build scenario — model "sabia-2-medium", max tokens
256, temperature 0.2, streaming on, 8 tokens per message — sets exactly
those five fields and leaves every other field at its default. -/
theorem concrete_build_scenario :
    maritaca.applyOptions
        [.withModel (goStr "sabia-2-medium"), .withMaxTokens 256,
         .withTemperature 0.2, .withStream true, .withTokensPerMessage 8]
        maritaca.defaultOptions =
      .ok { maritaca.defaultOptions with
            model := goStr "sabia-2-medium"
            maritacaOptions := { maritaca.defaultOptions.maritacaOptions with
              MaxTokens := 256
              Temperature := 0.2
              Stream := true
              NumTokensPerMessage := 8 } } := by
  rfl

/-- C8: setting the server endpoint to "http://localhost:8080" succeeds —
it does not take the fatal path — and stores a parsed location with scheme
"http" and host "localhost:8080". -/
theorem serverURL_localhost :
    maritaca.WithServerURL (goStr "http://localhost:8080") maritaca.defaultOptions =
      .ok { maritaca.defaultOptions with
            maritacaServerURL :=
              some { Scheme := goStr "http", Host := goStr "localhost:8080" } } := by
  rfl

/-- C10: every modifier other than the server-endpoint one is idempotent —
applying it twice with the same value yields the same configuration as
applying it once (and it never takes a fatal path). -/
theorem idempotent_except_serverURL (m : maritaca.Mod) (o : maritaca.options)
    (h : maritaca.isServerURLMod m = false) :
    ∃ o' : maritaca.options,
      maritaca.applyMod m o = .ok o' ∧ maritaca.applyMod m o' = .ok o' := by
  cases m <;>
    first
    | exact ⟨_, rfl, rfl⟩
    | simp [maritaca.isServerURLMod] at h

theorem idempotent_except_serverURL_witness :
    maritaca.isServerURLMod (.withModel (goStr "m")) = false ∧
    ∃ o' : maritaca.options,
      maritaca.applyMod (.withModel (goStr "m")) maritaca.defaultOptions = .ok o' ∧
      maritaca.applyMod (.withModel (goStr "m")) o' = .ok o' :=
  ⟨rfl, idempotent_except_serverURL (.withModel (goStr "m"))
    maritaca.defaultOptions rfl⟩

/-- C2: whenever the URL parser rejects the supplied endpoint string, the
server-endpoint modifier takes the fatal path — modelled as `.error`,
i.e. process termination with no stored location and no recoverable return
— and the concrete input "not a url\n" (which contains a control
character) is rejected by the parser. -/
theorem invalid_url_fatal :
    (∀ (o : maritaca.options) (s e : GoString),
        url.Parse s = .error e → maritaca.WithServerURL s o = .error e) ∧
    url.Parse (goStr "not a url\n") =
      .error (goStr "invalid control character in URL") := by
  constructor
  · intro o s e h
    simp [maritaca.WithServerURL, h]
  · rfl

theorem invalid_url_fatal_witness :
    url.Parse (goStr "not a url\n") =
      .error (goStr "invalid control character in URL") ∧
    maritaca.WithServerURL (goStr "not a url\n") maritaca.defaultOptions =
      .error (goStr "invalid control character in URL") :=
  ⟨rfl, invalid_url_fatal.1 maritaca.defaultOptions (goStr "not a url\n")
    (goStr "invalid control character in URL") rfl⟩

/-- C9: the server-endpoint modifier takes its fatal path exactly when the
underlying URL parse fails; on success it overwrites the stored endpoint
with the parser's result. In particular the parser accepts the empty
string (yielding an all-empty location) and the control-character-free
string "not a url" (stored as a path), despite the documented non-empty
URL input constraint. -/
theorem serverURL_fatal_iff_parse_error :
    (∀ (o : maritaca.options) (s : GoString),
        (maritaca.WithServerURL s o).isOk = (url.Parse s).isOk) ∧
    (∀ (o : maritaca.options) (s : GoString) (u : url.URL),
        url.Parse s = .ok u →
        maritaca.WithServerURL s o = .ok { o with maritacaServerURL := some u }) ∧
    url.Parse (goStr "") = .ok {} ∧
    url.Parse (goStr "not a url") =
      .ok { Path := goStr "not a url", RawPath := goStr "not a url" } := by
  refine ⟨?_, ?_, by rfl, by rfl⟩
  · intro o s
    unfold maritaca.WithServerURL
    cases hp : url.Parse s <;> simp [hp, Except.isOk, Except.toBool]
  · intro o s u h
    simp [maritaca.WithServerURL, h]

theorem serverURL_fatal_iff_parse_error_witness :
    url.Parse (goStr "not a url") =
      .ok { Path := goStr "not a url", RawPath := goStr "not a url" } ∧
    maritaca.WithServerURL (goStr "not a url") maritaca.defaultOptions =
      .ok { maritaca.defaultOptions with
            maritacaServerURL :=
              some { Path := goStr "not a url", RawPath := goStr "not a url" } } :=
  ⟨rfl, serverURL_fatal_iff_parse_error.2.1 maritaca.defaultOptions
    (goStr "not a url")
    { Path := goStr "not a url", RawPath := goStr "not a url" } rfl⟩

namespace url

theorem goSplit_no_sep (b : Nat) (cutc : Bool) :
    ∀ s : GoString, (∀ c ∈ s, c ≠ b) → goSplit s b cutc = (s, []) := by
  intro s
  induction s with
  | nil => intro _; rfl
  | cons c rest ih =>
    intro h
    have hc : (c == b) = false := by
      simp [h c (List.mem_cons_self c rest)]
    simp [goSplit, hc, ih (fun x hx => h x (List.mem_cons_of_mem c hx))]

theorem goSplit_boundary :
    ∀ (a t : GoString), (∀ c ∈ a, c ≠ 47) →
      goSplit (a ++ 47 :: t) 47 false = (a, 47 :: t) := by
  intro a t
  induction a with
  | nil => intro _; simp [goSplit]
  | cons c rest ih =>
    intro h
    have hc : (c == 47) = false := by
      simp [h c (List.mem_cons_self c rest)]
    simp [goSplit, hc, ih (fun x hx => h x (List.mem_cons_of_mem c hx))]

theorem lastIdxByte_none (b : Nat) :
    ∀ s : GoString, (∀ c ∈ s, c ≠ b) → lastIdxByte s b = none := by
  intro s
  induction s with
  | nil => intro _; rfl
  | cons c rest ih =>
    intro h
    have hc : (c == b) = false := by
      simp [h c (List.mem_cons_self c rest)]
    simp [lastIdxByte, hc, ih (fun x hx => h x (List.mem_cons_of_mem c hx))]

theorem shouldEscape_host_simple (c : Nat) (h : simpleHostByte c = true) :
    shouldEscape c .host = false := by
  simp only [simpleHostByte, Bool.or_eq_true, beq_iff_eq] at h
  rcases h with (h | h) | h
  · simp [shouldEscape, h]
  · subst h; decide
  · subst h; decide

theorem shouldEscape_path_ge32 (c : Nat) (h : shouldEscape c .path = false) :
    32 ≤ c ∧ c ≠ 127 := by
  have hlt : ∀ x, x < 32 → shouldEscape x Encoding.path = true := by decide
  constructor
  · by_contra hc
    have h32 := hlt c (by omega)
    rw [h32] at h
    exact Bool.noConfusion h
  · intro hc
    subst hc
    exact absurd h (by decide)

theorem unescape_host_simple :
    ∀ s : GoString, (∀ c ∈ s, simpleHostByte c = true) →
      unescape s .host = .ok s := by
  intro s
  induction s with
  | nil => intro _; rfl
  | cons c rest ih =>
    intro h
    have hc := h c (List.mem_cons_self c rest)
    have h37 : (c == 37) = false := by
      rcases eq_or_ne c 37 with h' | h'
      · subst h'; exact absurd hc (by decide)
      · simp [h']
    have h43 : (c == 43) = false := by
      rcases eq_or_ne c 43 with h' | h'
      · subst h'; exact absurd hc (by decide)
      · simp [h']
    have hse := shouldEscape_host_simple c hc
    rw [unescape.eq_def]
    dsimp only
    rw [if_neg (by simp [h37]), if_neg (by simp [h43]), if_neg (by simp [hse]),
      ih (fun x hx => h x (List.mem_cons_of_mem c hx))]
    rfl

theorem unescape_path_safe :
    ∀ s : GoString, (∀ c ∈ s, shouldEscape c .path = false) →
      unescape s .path = .ok s := by
  intro s
  induction s with
  | nil => intro _; rfl
  | cons c rest ih =>
    intro h
    have hc := h c (List.mem_cons_self c rest)
    have h37 : (c == 37) = false := by
      rcases eq_or_ne c 37 with h' | h'
      · subst h'; exact absurd hc (by decide)
      · simp [h']
    have ihr := ih (fun x hx => h x (List.mem_cons_of_mem c hx))
    rcases eq_or_ne c 43 with h' | h'
    · subst h'
      rw [unescape.eq_def]
      dsimp only
      rw [if_neg (by simp), if_pos (beq_self_eq_true 43), ihr]
      rfl
    · have h43 : (c == 43) = false := by simp [h']
      rw [unescape.eq_def]
      dsimp only
      rw [if_neg (by simp [h37]), if_neg (by simp [h43]), if_neg (by simp [hc]), ihr]
      rfl

theorem escape_id (mode : Encoding) (hm : (mode == Encoding.queryComponent) = false) :
    ∀ s : GoString, (∀ c ∈ s, shouldEscape c mode = false) →
      escape s mode = s := by
  intro s
  induction s with
  | nil => intro _; rfl
  | cons c rest ih =>
    intro h
    have hc := h c (List.mem_cons_self c rest)
    simp [escape, hm, hc, ih (fun x hx => h x (List.mem_cons_of_mem c hx))]

theorem map_toLower_lower :
    ∀ s : GoString, (∀ c ∈ s, 97 ≤ c ∧ c ≤ 122) → s.map toLowerByte = s := by
  intro s
  induction s with
  | nil => intro _; rfl
  | cons c rest ih =>
    intro h
    have hc := h c (List.mem_cons_self c rest)
    have hl : toLowerByte c = c := by
      unfold toLowerByte
      have hff : (65 ≤ c && c ≤ 90) = false := by
        simp only [Bool.and_eq_false_iff, decide_eq_false_iff_not]
        omega
      simp [hff]
    simp [hl, ih (fun x hx => h x (List.mem_cons_of_mem c hx))]

theorem getSchemeAux_run (orig : GoString) :
    ∀ (sch : GoString) (acc r : GoString), (∀ c ∈ sch, isAlphaByte c = true) →
      acc ++ sch ≠ [] →
      getSchemeAux orig acc (sch ++ 58 :: r) = .ok (acc ++ sch, r) := by
  intro sch
  induction sch with
  | nil =>
    intro acc r _ hne
    simp only [List.append_nil] at hne ⊢
    have hacc : (acc == []) = false := by simp [hne]
    simp [getSchemeAux, hacc, isAlphaByte, isDigitByte]
  | cons c cs ih =>
    intro acc r h hne
    have hc := h c (List.mem_cons_self c cs)
    have ih' := ih (acc ++ [c]) r (fun x hx => h x (List.mem_cons_of_mem c hx))
      (by simp)
    simp only [List.cons_append, getSchemeAux, hc, if_true]
    exact ih'.trans (by simp)

theorem getScheme_run (sch r : GoString) (h : ∀ c ∈ sch, isAlphaByte c = true)
    (hne : sch ≠ []) : getScheme (sch ++ 58 :: r) = .ok (sch, r) := by
  unfold getScheme
  have := getSchemeAux_run (sch ++ 58 :: r) sch [] r h (by simpa using hne)
  simpa using this

end url

namespace url

theorem parseHost_simple (host : GoString) (hne : host ≠ [])
    (h : ∀ c ∈ host, simpleHostByte c = true) : parseHost host = .ok host := by
  have h91 : (host.head? == some 91) = false := by
    cases host with
    | nil => exact absurd rfl hne
    | cons c t =>
      have hc := h c (List.mem_cons_self c t)
      have hcne : c ≠ 91 := by
        rintro rfl
        exact absurd hc (by decide)
      simp [hcne]
  have h58 : lastIdxByte host 58 = none :=
    lastIdxByte_none 58 host (fun c hc hcc => by
      subst hcc
      exact absurd (h 58 hc) (by decide))
  unfold parseHost
  rw [if_neg (by simp_all), h58]
  exact unescape_host_simple host h

theorem parseAuthority_simple (host : GoString) (hne : host ≠ [])
    (h : ∀ c ∈ host, simpleHostByte c = true) :
    parseAuthority host = .ok (none, host) := by
  have h64 : lastIdxByte host 64 = none :=
    lastIdxByte_none 64 host (fun c hc hcc => by
      subst hcc
      exact absurd (h 64 hc) (by decide))
  unfold parseAuthority
  rw [h64, parseHost_simple host hne h]
  rfl

theorem setPathFields_safe (path : GoString)
    (h : ∀ c ∈ path, shouldEscape c .path = false) :
    setPathFields path = .ok (path, []) := by
  unfold setPathFields
  rw [unescape_path_safe path h]
  have he : escape path .path = path := escape_id .path (by rfl) path h
  simp [bind, Except.bind, he]

theorem split_host_path (host path : GoString)
    (hh : ∀ c ∈ host, simpleHostByte c = true)
    (hp : path = [] ∨ ∃ t, path = 47 :: t) :
    goSplit (host ++ path) 47 false = (host, path) := by
  have h47 : ∀ c ∈ host, c ≠ 47 := fun c hc hcc => by
    subst hcc
    exact absurd (hh 47 hc) (by decide)
  rcases hp with rfl | ⟨t, rfl⟩
  · rw [List.append_nil]
    exact goSplit_no_sep 47 false host h47
  · exact goSplit_boundary host t h47

theorem parseRest_simple (scheme host path : GoString)
    (hs : scheme ≠ [])
    (hh : ∀ c ∈ host, simpleHostByte c = true) (hhne : host ≠ [])
    (hp : ∀ c ∈ path, shouldEscape c .path = false)
    (hp1 : path = [] ∨ ∃ t, path = 47 :: t) :
    parseRest scheme false [] (47 :: 47 :: (host ++ path)) false =
      .ok { Scheme := scheme, Host := host, Path := path } := by
  unfold parseRest
  rw [if_pos]
  · have hdrop : (47 :: 47 :: (host ++ path)).drop 2 = host ++ path := rfl
    rw [hdrop, split_host_path host path hh hp1]
    dsimp only
    rw [parseAuthority_simple host hhne hh]
    dsimp only
    rw [setPathFields_safe path hp]
    rfl
  · have hbne : (scheme != []) = true := by simp [bne, hs]
    simp [hbne, List.isPrefixOf]

end url

namespace url

theorem getLastQ_ne (b : Nat) :
    ∀ l : GoString, (∀ c ∈ l, c ≠ b) → (l.getLast? == some b) = false := by
  intro l
  induction l with
  | nil => intro _; rfl
  | cons c rest ih =>
    intro h
    cases rest with
    | nil =>
      have hc := h c (List.mem_cons_self c [])
      have hg : ([c] : GoString).getLast? = some c := rfl
      rw [hg]
      simp [hc]
    | cons d t =>
      rw [List.getLast?_cons_cons]
      exact ih (fun x hx => h x (List.mem_cons_of_mem c hx))

theorem ctl_false (s : GoString) (h : ∀ c ∈ s, 32 ≤ c ∧ c ≠ 127) :
    stringContainsCTLByte s = false := by
  unfold stringContainsCTLByte
  rw [List.any_eq_false]
  intro c hc
  have h2 := h c hc
  simp only [Bool.or_eq_true, decide_eq_true_eq, beq_iff_eq, not_or]
  exact ⟨by omega, h2.2⟩

end url

namespace url

theorem simpleHost_bound (c : Nat) (h : simpleHostByte c = true) :
    32 ≤ c ∧ c ≠ 127 := by
  simp only [simpleHostByte, isAlphaNumByte, isAlphaByte, isDigitByte,
    Bool.or_eq_true, Bool.and_eq_true, decide_eq_true_eq, beq_iff_eq] at h
  omega

theorem simpleHost_ne (c b : Nat) (h : simpleHostByte c = true)
    (hb : simpleHostByte b = false) : c ≠ b := by
  intro h'
  subst h'
  rw [h] at hb
  exact Bool.noConfusion hb

theorem pathSafe_ne (c b : Nat) (h : shouldEscape c Encoding.path = false)
    (hb : shouldEscape b Encoding.path = true) : c ≠ b := by
  intro h'
  subst h'
  rw [h] at hb
  exact Bool.noConfusion hb

theorem parseInner_simple (scheme host path : GoString)
    (hs1 : scheme ≠ []) (hs2 : ∀ c ∈ scheme, 97 ≤ c ∧ c ≤ 122)
    (hh1 : host ≠ []) (hh2 : ∀ c ∈ host, simpleHostByte c = true)
    (hp2 : ∀ c ∈ path, shouldEscape c .path = false)
    (hp1 : path = [] ∨ ∃ t, path = 47 :: t) :
    parseInner (scheme ++ [58, 47, 47] ++ host ++ path) false =
      .ok { Scheme := scheme, Host := host, Path := path } := by
  have hctl : stringContainsCTLByte (scheme ++ [58, 47, 47] ++ host ++ path) = false := by
    apply ctl_false
    intro c hc
    rcases List.mem_append.1 hc with hc1 | hc6
    case inr => exact shouldEscape_path_ge32 c (hp2 c hc6)
    rcases List.mem_append.1 hc1 with hc2 | hc5
    case inr => exact simpleHost_bound c (hh2 c hc5)
    rcases List.mem_append.1 hc2 with hc3 | hc4
    · have := hs2 c hc3; omega
    · have : c = 58 ∨ c = 47 := by simpa using hc4
      omega
  have hstar : ((scheme ++ [58, 47, 47] ++ host ++ path) == goStr "*") = false := by
    have hg : goStr "*" = [42] := rfl
    rw [hg, beq_eq_false_iff_ne]
    cases scheme with
    | nil => exact absurd rfl hs1
    | cons c cs =>
      intro heq
      have hcc := hs2 c (List.mem_cons_self c cs)
      have : c = 42 := by
        have h2 := congrArg List.head? heq
        simpa using h2
      omega
  have hrest63 : ∀ c ∈ (47 :: 47 :: (host ++ path)), c ≠ 63 := by
    intro c hc
    rcases List.mem_cons.1 hc with rfl | hc
    · omega
    rcases List.mem_cons.1 hc with rfl | hc
    · omega
    rcases List.mem_append.1 hc with hc | hc
    · exact simpleHost_ne c 63 (hh2 c hc) (by decide)
    · exact pathSafe_ne c 63 (hp2 c hc) (by decide)
  have hgs : getScheme (scheme ++ [58, 47, 47] ++ host ++ path) =
      .ok (scheme, 47 :: 47 :: (host ++ path)) := by
    have heq : scheme ++ [58, 47, 47] ++ host ++ path =
        scheme ++ 58 :: (47 :: 47 :: (host ++ path)) := by simp
    rw [heq]
    refine getScheme_run scheme _ (fun c hc => ?_) hs1
    have := hs2 c hc
    simp only [isAlphaByte, Bool.or_eq_true, Bool.and_eq_true, decide_eq_true_eq]
    omega
  have hlast : ((47 :: 47 :: (host ++ path)).getLast? == some 63) = false :=
    getLastQ_ne 63 _ hrest63
  have hsplit63 : goSplit (47 :: 47 :: (host ++ path)) 63 true =
      ((47 :: 47 :: (host ++ path)), []) := goSplit_no_sep 63 true _ hrest63
  unfold parseInner
  simp only [hctl, Bool.false_eq_true, if_false, Bool.and_false, hstar, hgs,
    bind, Except.bind, map_toLower_lower scheme hs2, hlast, Bool.false_and,
    hsplit63, List.isPrefixOf, beq_self_eq_true, Bool.and_true, Bool.true_and,
    Bool.not_true, Bool.not_false]
  exact parseRest_simple scheme host path hs1 hh2 hh1 hp2 hp1

end url

namespace url

theorem Parse_simple (scheme host path : GoString)
    (hs1 : scheme ≠ []) (hs2 : ∀ c ∈ scheme, 97 ≤ c ∧ c ≤ 122)
    (hh1 : host ≠ []) (hh2 : ∀ c ∈ host, simpleHostByte c = true)
    (hp2 : ∀ c ∈ path, shouldEscape c .path = false)
    (hp1 : path = [] ∨ ∃ t, path = 47 :: t) :
    Parse (scheme ++ [58, 47, 47] ++ host ++ path) =
      .ok { Scheme := scheme, Host := host, Path := path } := by
  have h35 : ∀ c ∈ scheme ++ [58, 47, 47] ++ host ++ path, c ≠ 35 := by
    intro c hc
    rcases List.mem_append.1 hc with hc1 | hc6
    case inr => exact pathSafe_ne c 35 (hp2 c hc6) (by decide)
    rcases List.mem_append.1 hc1 with hc2 | hc5
    case inr => exact simpleHost_ne c 35 (hh2 c hc5) (by decide)
    rcases List.mem_append.1 hc2 with hc3 | hc4
    · have := hs2 c hc3; omega
    · have : c = 58 ∨ c = 47 := by simpa using hc4
      omega
  unfold Parse
  rw [goSplit_no_sep 35 true _ h35]
  dsimp only
  rw [parseInner_simple scheme host path hs1 hs2 hh1 hh2 hp2 hp1]
  rfl

theorem String_simple (scheme host path : GoString)
    (hs1 : scheme ≠ []) (_hs2 : ∀ c ∈ scheme, 97 ≤ c ∧ c ≤ 122)
    (hh1 : host ≠ []) (hh2 : ∀ c ∈ host, simpleHostByte c = true)
    (hp2 : ∀ c ∈ path, shouldEscape c .path = false)
    (hp1 : path = [] ∨ ∃ t, path = 47 :: t) :
    url.String { Scheme := scheme, Host := host, Path := path } =
      scheme ++ [58, 47, 47] ++ host ++ path := by
  have hsne : (scheme != ([] : GoString)) = true := by simp [bne, hs1]
  have hhne : (host != ([] : GoString)) = true := by simp [bne, hh1]
  have hesc : escape host .host = host :=
    escape_id .host (by rfl) host (fun c hc => shouldEscape_host_simple c (hh2 c hc))
  have hep : escapedPath { Scheme := scheme, Host := host, Path := path } = path := by
    unfold escapedPath
    have hstar : (path == goStr "*") = false := by
      have hg : goStr "*" = [42] := rfl
      rw [hg, beq_eq_false_iff_ne]
      rcases hp1 with rfl | ⟨t, rfl⟩
      · simp
      · intro heq
        have := congrArg List.head? heq
        simp at this
    simp only [hstar, Bool.false_eq_true, if_false]
    have : (([] : GoString) != []) = false := rfl
    rw [this]
    simp only [Bool.false_and, Bool.false_eq_true, if_false]
    exact escape_id .path (by rfl) path hp2
  unfold String
  dsimp only
  rw [hep]
  simp only [bne_self_eq_false, Bool.false_eq_true, if_false, hsne, Bool.true_or, if_true,
    Bool.false_and, Bool.and_false, hhne, hesc, Bool.or_false, Bool.false_or, Bool.or_true]
  have hpre : ((scheme ++ [58] ++ ([47, 47] ++ [] ++ host)) == ([] : GoString)) = false := by
    rw [beq_eq_false_iff_ne]
    intro hnil
    have h1 := List.append_eq_nil.1 hnil
    have h2 := List.append_eq_nil.1 h1.1
    exact absurd h2.2 (by simp)
  rw [if_neg (by simp [hpre])]
  rcases hp1 with rfl | ⟨t, rfl⟩
  · simp
  · simp [List.append_assoc]

end url


/-- C4 counterexample: the string "%2F%2F x" is accepted by the URL parser
(so the modifier stores a location for it), yet the stored location's
round-tripped string form "//%20x" does not re-parse at all — its percent
escape is illegal in the authority position — so the round-tripped form is
not semantically equivalent to the input and preserves neither host nor
path. -/
theorem serverURL_roundtrip_counterexample :
    (url.Parse (goStr "%2F%2F x")).isOk = true ∧
    (maritaca.WithServerURL (goStr "%2F%2F x") maritaca.defaultOptions).isOk = true ∧
    (url.Parse (goStr "%2F%2F x")).map
        (fun u => (u.Path, url.String u, (url.Parse (url.String u)).isOk)) =
      .ok (goStr "// x", goStr "//%20x", false) :=
  ⟨rfl, rfl, rfl⟩

/-- C4 (amended): for syntactically valid URL strings of the simple
absolute form `scheme://host[/path]` — non-empty lowercase-alphabetic
scheme, non-empty host of alphanumerics, dots and hyphens, and a path of
bytes needing no escaping that is empty or starts with a slash — the
set-server-endpoint modifier stores a parsed location whose round-tripped
string form equals the input, so scheme, host and path are preserved; for
arbitrary valid URL strings the round-trip equivalence fails (see the
counterexample). -/
theorem serverURL_roundtrip_amended (o : maritaca.options)
    (scheme host path : GoString)
    (hs1 : scheme ≠ []) (hs2 : ∀ c ∈ scheme, 97 ≤ c ∧ c ≤ 122)
    (hh1 : host ≠ []) (hh2 : ∀ c ∈ host, url.simpleHostByte c = true)
    (hp2 : ∀ c ∈ path, url.shouldEscape c .path = false)
    (hp1 : path = [] ∨ ∃ t, path = 47 :: t) :
    ∃ u : url.URL,
      url.Parse (scheme ++ [58, 47, 47] ++ host ++ path) = .ok u ∧
      maritaca.WithServerURL (scheme ++ [58, 47, 47] ++ host ++ path) o =
        .ok { o with maritacaServerURL := some u } ∧
      u.Scheme = scheme ∧ u.Host = host ∧ u.Path = path ∧
      url.String u = scheme ++ [58, 47, 47] ++ host ++ path ∧
      url.Parse (url.String u) = .ok u := by
  refine ⟨{ Scheme := scheme, Host := host, Path := path },
    url.Parse_simple scheme host path hs1 hs2 hh1 hh2 hp2 hp1, ?_, rfl, rfl, rfl,
    url.String_simple scheme host path hs1 hs2 hh1 hh2 hp2 hp1, ?_⟩
  · unfold maritaca.WithServerURL
    rw [url.Parse_simple scheme host path hs1 hs2 hh1 hh2 hp2 hp1]
  · rw [url.String_simple scheme host path hs1 hs2 hh1 hh2 hp2 hp1]
    exact url.Parse_simple scheme host path hs1 hs2 hh1 hh2 hp2 hp1

theorem serverURL_roundtrip_amended_witness :
    goStr "http" ≠ [] ∧
    ∃ u : url.URL,
      url.Parse (goStr "http" ++ [58, 47, 47] ++ goStr "example.com" ++ goStr "/a/b") =
        .ok u ∧
      maritaca.WithServerURL
          (goStr "http" ++ [58, 47, 47] ++ goStr "example.com" ++ goStr "/a/b")
          maritaca.defaultOptions =
        .ok { maritaca.defaultOptions with maritacaServerURL := some u } ∧
      u.Scheme = goStr "http" ∧ u.Host = goStr "example.com" ∧
      u.Path = goStr "/a/b" ∧
      url.String u =
        goStr "http" ++ [58, 47, 47] ++ goStr "example.com" ++ goStr "/a/b" ∧
      url.Parse (url.String u) = .ok u :=
  ⟨by decide, serverURL_roundtrip_amended maritaca.defaultOptions (goStr "http")
    (goStr "example.com") (goStr "/a/b") (by decide) (by decide) (by decide)
    (by decide) (by decide) (Or.inr ⟨goStr "a/b", by decide⟩)⟩
